import Mathlib

/-!
Shallow embedding of the moltiverse generative-art renderer (src/sketch.js).

JavaScript numbers are modelled as `JNum`: either an actual (finite) number,
represented by a rational, or NaN.  Infinities are not modelled; no code path
exercised by the verified properties can produce one.  Raw JSON documents are
modelled by `JSVal`; `JSVal.undefined` stands for the result of accessing an
absent property (JSON itself never contains `undefined`).
-/

/-- A JavaScript number: a finite value (modelled as a rational) or NaN. -/
inductive JNum where
  | nan : JNum
  | num : ℚ → JNum
deriving DecidableEq, Repr

/-- True exactly when the value is an actual number (not NaN). -/
def JNum.isNum : JNum → Bool
  | .nan => false
  | .num _ => true

/-- Lift a binary rational operation to JS numbers; NaN propagates, as in JS
arithmetic and in Math.min / Math.max. -/
def jbin (f : ℚ → ℚ → ℚ) : JNum → JNum → JNum
  | .num a, .num b => .num (f a b)
  | _, _ => .nan

/-- Lift a unary rational operation to JS numbers; NaN propagates. -/
def jun (f : ℚ → ℚ) : JNum → JNum
  | .num a => .num (f a)
  | .nan => .nan

def jadd : JNum → JNum → JNum := jbin (· + ·)

def jsub : JNum → JNum → JNum := jbin (· - ·)

def jmul : JNum → JNum → JNum := jbin (· * ·)

/-- JS division.  Division by zero yields an infinity in JS, which this model
does not represent; it is mapped to NaN.  Every division in the embedded code
is guarded by a positivity test on the divisor, so the branch is unreachable
in the verified properties. -/
def jdiv : JNum → JNum → JNum
  | .num a, .num b => if b = 0 then .nan else .num (a / b)
  | _, _ => .nan

/-- Math.min on two arguments (NaN propagates). -/
def jmin : JNum → JNum → JNum := jbin min

/-- Math.max on two arguments (NaN propagates). -/
def jmax : JNum → JNum → JNum := jbin max

/-- Math.floor (NaN propagates). -/
def jfloor : JNum → JNum
  | .nan => .nan
  | .num q => .num (⌊q⌋ : ℤ)

/-- The JS comparison a >= b; false whenever either side is NaN. -/
def jge : JNum → JNum → Bool
  | .num a, .num b => decide (b ≤ a)
  | _, _ => false

/-- The JS comparison a <= b; false whenever either side is NaN. -/
def jle : JNum → JNum → Bool
  | .num a, .num b => decide (a ≤ b)
  | _, _ => false

/-- clamp(v, lo, hi) from sketch.js, on JS numbers:
Math.max(lo, Math.min(hi, v)). -/
def clampJ (v lo hi : JNum) : JNum := jmax lo (jmin hi v)

/-- clamp(v, lo, hi) from sketch.js restricted to actual numbers. -/
def clampQ (v lo hi : ℚ) : ℚ := max lo (min hi v)

/-- A JSON-ish JavaScript value.  `undef` models the `undefined` returned by
accessing an absent property. -/
inductive JSVal where
  | undefined : JSVal
  | null : JSVal
  | bool : Bool → JSVal
  | num : ℚ → JSVal
  | str : String → JSVal
  | arr : List JSVal → JSVal
  | obj : List (String × JSVal) → JSVal

/-- JS truthiness: undefined, null, false, 0, NaN and the empty string are
falsy; everything else is truthy.  (NaN never occurs inside a parsed JSON
document, so it is not a `JSVal` case.) -/
def truthy : JSVal → Bool
  | .undefined => false
  | .null => false
  | .bool b => b
  | .num q => !(q == 0)
  | .str s => !(s == "")
  | .arr _ => true
  | .obj _ => true

/-- Array.isArray. -/
def isArr : JSVal → Bool
  | .arr _ => true
  | _ => false

/-- Property access `v[k]`.  On an object it returns the first binding of the
key (documents in the verified properties have no duplicate keys); on every
other value it returns undefined.  In JS, property access on null or
undefined throws; the theorems below never exercise that case. -/
def getField (v : JSVal) (k : String) : JSVal :=
  match v with
  | .obj kvs => ((kvs.find? (fun p => p.1 == k)).map (fun p => p.2)).getD .undefined
  | _ => .undefined

/-- The JS expression `a || b`. -/
def jsOr (a b : JSVal) : JSVal := if truthy a then a else b

/-- JS whitespace characters recognised by String.prototype.trim and by
parseInt / Number (the common ASCII subset). -/
def isJsSpace (c : Char) : Bool :=
  c == ' ' || c == '\t' || c == '\n' || c == '\r' || c == '\x0b' || c == '\x0c'

/-- String.prototype.trim on a character list. -/
def trimChars (cs : List Char) : List Char :=
  ((cs.dropWhile isJsSpace).reverse.dropWhile isJsSpace).reverse

/-- The effect of s.replace(a single-character pattern, empty string): remove
the first occurrence of the character. -/
def removeFirstHash : List Char → List Char
  | [] => []
  | c :: cs => if c = '#' then cs else c :: removeFirstHash cs

def isHexDigit (c : Char) : Bool :=
  (('0' ≤ c) && (c ≤ '9')) || (('a' ≤ c) && (c ≤ 'f')) || (('A' ≤ c) && (c ≤ 'F'))

def hexDigitVal (c : Char) : ℕ :=
  if ('0' ≤ c) && (c ≤ '9') then c.toNat - '0'.toNat
  else if ('a' ≤ c) && (c ≤ 'f') then c.toNat - 'a'.toNat + 10
  else if ('A' ≤ c) && (c ≤ 'F') then c.toNat - 'A'.toNat + 10
  else 0

/-- parseInt(s, 16): skip leading whitespace, accept an optional sign and an
optional 0x / 0X prefix, then read the longest prefix of hex digits; if that
prefix is empty the result is NaN (`none`). -/
def parseIntHex (cs0 : List Char) : Option ℤ :=
  let cs1 := cs0.dropWhile isJsSpace
  let sc : ℤ × List Char :=
    match cs1 with
    | '-' :: rest => (-1, rest)
    | '+' :: rest => (1, rest)
    | _ => (1, cs1)
  let cs2 : List Char :=
    match sc.2 with
    | '0' :: 'x' :: rest => rest
    | '0' :: 'X' :: rest => rest
    | _ => sc.2
  let ds := cs2.takeWhile isHexDigit
  if ds.isEmpty then none
  else some (sc.1 * (ds.foldl (fun acc c => acc * 16 + hexDigitVal c) 0 : ℕ))

/-- hexToRgb from sketch.js.  A non-string, or a string whose cleaned form
(first '#' removed, then trimmed) does not have length 6, or whose three
2-character slices do not all parse under parseInt(_, 16), yields the fixed
fallback (120, 130, 150). -/
def hexToRgb (v : JSVal) : ℚ × ℚ × ℚ :=
  match v with
  | .str s =>
    let h := trimChars (removeFirstHash s.toList)
    if h.length ≠ 6 then (120, 130, 150)
    else
      match parseIntHex (h.take 2), parseIntHex ((h.drop 2).take 2),
            parseIntHex ((h.drop 4).take 2) with
      | some r, some g, some b => ((r : ℚ), (g : ℚ), (b : ℚ))
      | _, _, _ => (120, 130, 150)
  | _ => (120, 130, 150)

/-- Digits-to-natural accumulator for decimal parsing. -/
def natFromDigits (ds : List Char) : ℕ :=
  ds.foldl (fun acc c => acc * 10 + (c.toNat - '0'.toNat)) 0

/-- The numeric interpretation of a string under Number(_): trimmed; empty
means 0; otherwise an optionally signed decimal literal with an optional
fractional part.  (Exponent, hex and Infinity literal forms are not modelled;
no verified property depends on them.)  Anything else is NaN. -/
def strToNumber (s : String) : JNum :=
  let cs := trimChars s.toList
  if cs.isEmpty then .num 0
  else
    let sc : ℚ × List Char :=
      match cs with
      | '-' :: rest => (-1, rest)
      | '+' :: rest => (1, rest)
      | _ => (1, cs)
    let ip := sc.2.takeWhile Char.isDigit
    let rest := sc.2.dropWhile Char.isDigit
    match rest with
    | [] => if ip.isEmpty then .nan else .num (sc.1 * natFromDigits ip)
    | '.' :: fp =>
      if fp.all Char.isDigit && !(ip.isEmpty && fp.isEmpty) then
        .num (sc.1 * ((natFromDigits ip : ℚ) + (natFromDigits fp : ℚ) / (10 : ℚ) ^ fp.length))
      else .nan
    | _ => .nan

/-- Number(v) coercion.  Arrays: an empty array coerces to 0, a one-element
array coerces like its (primitive) element, anything longer is NaN; nested
arrays are approximated as NaN (JS stringifies first).  Objects are NaN. -/
def toNumber : JSVal → JNum
  | .undefined => .nan
  | .null => .num 0
  | .bool b => .num (if b then 1 else 0)
  | .num q => .num q
  | .str s => strToNumber s
  | .arr [] => .num 0
  | .arr [x] =>
    match x with
    | .num q => .num q
    | .str s => strToNumber s
    | .null => .num 0
    | _ => .nan
  | .arr _ => .nan
  | .obj _ => .nan

/-- A normalized token as produced by normalizeState (the `cooked` entries of
the `_tokens` field).  `raw` carries the spread `...token` source object. -/
structure NormToken where
  raw : JSVal
  energy : JNum
  momentum : JNum
  activity : JNum
  phase : JNum
  frequency : JNum
  noise_seed : JNum
  anchor_u : JNum
  anchor_v : JNum
  gradient_rgb : List (ℚ × ℚ × ℚ)

/-- View a value as a JS array when Array.isArray holds. -/
def asArrList : JSVal → Option (List JSVal)
  | .arr l => some l
  | _ => none

/-- The token's palette when it is an array, else the fixed 3-color default
list of normalizeState. -/
def paletteOrDefault (token : JSVal) : List JSVal :=
  match asArrList (getField token "palette") with
  | some p => p
  | none => [.str "#334455", .str "#8899AA", .str "#E6EEF8"]

/-- The gradient source resolved in normalizeState:
Array.isArray(token.gradient_map) && token.gradient_map.length > 1
? token.gradient_map : (Array.isArray(token.palette) ? token.palette : default). -/
def chooseGradient (token : JSVal) : List JSVal :=
  match asArrList (getField token "gradient_map") with
  | some l => if 1 < l.length then l else paletteOrDefault token
  | none => paletteOrDefault token

/-- The default noise anchor object used when token.noise_anchor is falsy. -/
def anchorDefault : JSVal := .obj [("u", .num (1/2)), ("v", .num (1/2))]

/-- The body of the map in normalizeState: normalize one raw token record. -/
def cookToken (token : JSVal) : NormToken :=
  let gradientRgb := (chooseGradient token).map hexToRgb
  let anchor := jsOr (getField token "noise_anchor") anchorDefault
  { raw := token
    energy := clampJ (toNumber (jsOr (getField token "energy") (.num 0))) (.num 0) (.num 1)
    momentum := clampJ (toNumber (jsOr (getField token "momentum") (.num 0))) (.num (-1)) (.num 1)
    activity := clampJ (toNumber (jsOr (getField token "activity") (.num 0))) (.num 0) (.num 1)
    phase := toNumber (jsOr (getField token "phase") (.num 0))
    frequency := toNumber (jsOr (getField token "frequency") (.num (35/100)))
    noise_seed := toNumber (jsOr (getField token "noise_seed") (.num 1))
    anchor_u := clampJ (toNumber (jsOr (getField anchor "u") (.num (1/2)))) (.num 0) (.num 1)
    anchor_v := clampJ (toNumber (jsOr (getField anchor "v") (.num (1/2)))) (.num 0) (.num 1)
    gradient_rgb := gradientRgb }

/-- The normalized visualization state.  `cooked` is the `_tokens` field of
the JS object (a leading underscore is not a convenient Lean field name). -/
structure NormState where
  raw : JSVal
  title : JSVal
  description : JSVal
  global_energy : JNum
  momentum_bias : JNum
  energy_spread : JNum
  active_tokens : List JSVal
  cooked : List NormToken

/-- normalizeState from sketch.js. -/
def normalizeState (json : JSVal) : NormState :=
  let srcTokens : List JSVal :=
    match getField json "active_tokens" with
    | .arr l => l
    | _ => []
  { raw := json
    title := jsOr (getField json "title") (.str "Autonomous Atelier")
    description := jsOr (getField json "description")
      (.str "A live pigment sea shaped by Nad.fun trade pressure. Each token diffuses through a stable noise neighborhood.")
    global_energy := clampJ (toNumber (jsOr (getField json "global_energy") (.num 0))) (.num 0) (.num 1)
    momentum_bias := clampJ (toNumber (jsOr (getField json "momentum_bias") (.num 0))) (.num (-1)) (.num 1)
    energy_spread := clampJ (toNumber (jsOr (getField json "energy_spread") (.num 0))) (.num 0) (.num 1)
    active_tokens := srcTokens
    cooked := srcTokens.map cookToken }

/-- The host math and noise primitives used by the renderer (Math.sin, cos,
atan2, hypot, pow, log10, p5 noise and TWO_PI).  They are transcendental, so
the embedding abstracts over them; every verified property holds for every
interpretation. -/
structure HostMath where
  noise : ℚ → ℚ → ℚ → ℚ
  sin : ℚ → ℚ
  cos : ℚ → ℚ
  atan2 : ℚ → ℚ → ℚ
  hypot : ℚ → ℚ → ℚ
  powf : ℚ → ℚ → ℚ
  log10 : ℚ → ℚ
  twoPi : ℚ

def jsin (M : HostMath) : JNum → JNum := jun M.sin

def jcos (M : HostMath) : JNum → JNum := jun M.cos

def jatan2 (M : HostMath) : JNum → JNum → JNum := jbin M.atan2

def jhypot (M : HostMath) : JNum → JNum → JNum := jbin M.hypot

/-- Math.pow lifted to JS numbers: the exponent 0 gives 1 even on NaN base;
otherwise NaN propagates. -/
def jpow (M : HostMath) (a b : JNum) : JNum :=
  match b with
  | .num e =>
    if e = 0 then .num 1
    else match a with
      | .num x => .num (M.powf x e)
      | .nan => .nan
  | .nan => .nan

def jnoise (M : HostMath) (a b c : JNum) : JNum :=
  match a, b, c with
  | .num x, .num y, .num z => .num (M.noise x y z)
  | _, _, _ => .nan

/-- hash01 from sketch.js. -/
def hash01 (M : HostMath) (n : JNum) : JNum :=
  let x := jmul (jsin M (jmul n (.num (129898/10000)))) (.num (4375854531230/100000000))
  jsub x (jfloor x)

/-- tokenAnchorPx from sketch.js; width and height are the canvas dimensions. -/
def tokenAnchorPx (token : NormToken) (w h : ℚ) : JNum × JNum :=
  (jmul token.anchor_u (.num w), jmul token.anchor_v (.num h))

/-- Index a gradient list by a JS number, as `g[i]` does for the floored
indices produced in sampleGradientRGB.  A NaN or negative index would be an
undefined read in JS (and a crash one line later); the model returns black,
and no verified property reaches that case. -/
def getColorAt (g : List (ℚ × ℚ × ℚ)) (i : JNum) : ℚ × ℚ × ℚ :=
  match i with
  | .num q => if 0 ≤ q then g.getD (⌊q⌋).toNat (0, 0, 0) else (0, 0, 0)
  | .nan => (0, 0, 0)

/-- lerpRGB from sketch.js, applied to two resolved gradient stops with a JS
number as interpolation parameter. -/
def lerpRGB (a b : ℚ × ℚ × ℚ) (t : JNum) : JNum × JNum × JNum :=
  let tt := clampJ t (.num 0) (.num 1)
  (jadd (.num a.1) (jmul (.num (b.1 - a.1)) tt),
   jadd (.num a.2.1) (jmul (.num (b.2.1 - a.2.1)) tt),
   jadd (.num a.2.2) (jmul (.num (b.2.2 - a.2.2)) tt))

/-- Wrap a concrete RGB triple as a triple of JS numbers. -/
def numTriple (c : ℚ × ℚ × ℚ) : JNum × JNum × JNum :=
  (.num c.1, .num c.2.1, .num c.2.2)

/-- sampleGradientRGB from sketch.js. -/
def sampleGradientRGB (token : NormToken) (t : JNum) : JNum × JNum × JNum :=
  let g := token.gradient_rgb
  if g.length = 0 then numTriple (16, 24, 40)
  else if g.length = 1 then numTriple (g.getD 0 (0, 0, 0))
  else
    let tt := jmul (clampJ t (.num 0) (.num 1)) (.num ((g.length : ℚ) - 1))
    let i0 := jfloor tt
    let i1 := jmin (.num ((g.length : ℚ) - 1)) (jadd i0 (.num 1))
    lerpRGB (getColorAt g i0) (getColorAt g i1) (jsub tt i0)

/-- flowVectorAt from sketch.js: the flow-field vector at pixel (px, py) and
time t, for canvas dimensions w, h, accumulated over the state's cooked
tokens. -/
def flowVectorAt (M : HostMath) (st : NormState) (w h px py t : ℚ) : JNum × JNum :=
  let acc := st.cooked.foldl
    (fun (acc : JNum × JNum × JNum) (token : NormToken) =>
      let anchor := tokenAnchorPx token w h
      let dx := jsub (.num px) anchor.1
      let dy := jsub (.num py) anchor.2
      let dist := jmax (.num 12) (jhypot M dx dy)
      let normDist := jdiv dist (.num (min w h))
      let falloff := jdiv (.num 1)
        (jadd (.num 1) (jmul (jpow M normDist (.num (135/100))) (.num 10)))
      let swirlSign : JNum := if jge token.momentum (.num 0) then .num 1 else .num (-1)
      let swirl := jadd (jadd (jatan2 M dy dx) token.phase)
        (jmul (jmul (.num t) token.frequency) swirlSign)
      let noiseAngle := jmul
        (jnoise M
          (jadd (.num (px * (3/1000))) (jmul (hash01 M token.noise_seed) (.num (45/10))))
          (jadd (.num (py * (3/1000))) (jmul (hash01 M (jadd token.noise_seed (.num 17))) (.num (45/10))))
          (.num (t * (12/100))))
        (.num M.twoPi)
      let ang := jadd
        (jmul swirl (jadd (.num (45/100)) (jmul token.activity (.num (25/100)))))
        (jmul noiseAngle (.num (55/100)))
      let mag := jmul
        (jmul (jadd (.num (25/100)) (jmul token.energy (.num (135/100))))
              (jadd (.num (55/100)) (jmul token.activity (.num (65/100)))))
        falloff
      (jadd acc.1 (jmul (jcos M ang) mag),
       jadd acc.2.1 (jmul (jsin M ang) mag),
       jadd acc.2.2 falloff))
    (.num 0, .num 0, .num 0)
  if jle acc.2.2 (.num 0) then (.num 0, .num 0)
  else (jdiv acc.1 acc.2.2, jdiv acc.2.1 acc.2.2)

/-- mixedSeaColor from sketch.js: the blended sea color at pixel (px, py) and
time t, for canvas dimensions w, h. -/
def mixedSeaColor (M : HostMath) (st : NormState) (w h px py t : ℚ) : JNum × JNum × JNum :=
  if st.cooked.length = 0 then numTriple (10, 16, 30)
  else
    let acc := st.cooked.foldl
      (fun (acc : JNum × JNum × JNum × JNum) (token : NormToken) =>
        let anchor := tokenAnchorPx token w h
        let dx := jsub (.num px) anchor.1
        let dy := jsub (.num py) anchor.2
        let dist := jmax (.num 8) (jhypot M dx dy)
        let normDist := jdiv dist (.num (min w h))
        let flow := jnoise M
          (jadd (.num (px * (36/10000))) (jmul (hash01 M (jadd token.noise_seed (.num 9))) (.num (36/10))))
          (jadd (.num (py * (36/10000))) (jmul (hash01 M (jadd token.noise_seed (.num 31))) (.num (36/10))))
          (jmul (.num t) (jadd (.num (9/100)) (jmul token.frequency (.num (16/100)))))
        let pulse := jadd (.num (1/2)) (jmul (.num (1/2))
          (jsin M (jadd (jadd token.phase (jmul (.num t) token.frequency))
                        (jmul dist (.num (12/1000))))))
        let indexT := clampJ (jadd (jmul flow (.num (68/100))) (jmul pulse (.num (32/100))))
          (.num 0) (.num 1)
        let c := sampleGradientRGB token indexT
        let wgt := jmul
          (jdiv (.num 1) (jadd (.num 1) (jmul (jpow M normDist (.num (165/100))) (.num 9))))
          (jadd (jadd (.num (18/100)) (jmul token.energy (.num (7/10))))
                (jmul token.activity (.num (6/10))))
        (jadd acc.1 (jmul c.1 wgt),
         jadd acc.2.1 (jmul c.2.1 wgt),
         jadd acc.2.2.1 (jmul c.2.2 wgt),
         jadd acc.2.2.2 wgt))
      (.num 0, .num 0, .num 0, .num 0)
    if jle acc.2.2.2 (.num 0) then numTriple (10, 16, 30)
    else (jdiv acc.1 acc.2.2.2, jdiv acc.2.1 acc.2.2.2, jdiv acc.2.2.1 acc.2.2.2)

/-- The possible outcomes of one fetch of the config document: a transport
error (the fetch promise rejects), a non-OK HTTP status, a JSON parse error
(res.json() rejects), or a successfully parsed document. -/
inductive FetchOutcome where
  | fetchError : FetchOutcome
  | notOk : FetchOutcome
  | jsonError : FetchOutcome
  | okJson : JSVal → FetchOutcome

/-- loadConfig from sketch.js, as a transition on the held state: every
failure outcome (and every parsed document failing the
`json && Array.isArray(json.active_tokens)` guard) leaves the previous state
in place; the try/catch means no error escapes, which the model reflects by
being a total function. -/
def loadConfig (prev : NormState) (outcome : FetchOutcome) : NormState :=
  match outcome with
  | .okJson json =>
    if truthy json && isArr (getField json "active_tokens") then normalizeState json
    else prev
  | _ => prev

/-- One RGBA pixel of the canvas pixel buffer (Uint8ClampedArray slots). -/
structure Pix where
  r : ℕ
  g : ℕ
  b : ℕ
  a : ℕ
deriving DecidableEq, Repr

/-- The per-row shift operation inside applyGlitchSnap: the row is copied,
and pixel x of the row receives the R, G, B channels of copied pixel
(x + shift + width) % width while keeping its own alpha (the code never
writes pixels[dst + 3]).  The % is JS truncated remainder; an out-of-range
source (possible only for shifts below -width) is an undefined read, which a
Uint8ClampedArray stores as channel value 0. -/
def glitchShiftRow (row : List Pix) (shift : ℤ) : List Pix :=
  let w : ℤ := row.length
  (List.range row.length).map fun x =>
    let srcX : ℤ := Int.tmod ((x : ℕ) + shift + w) w
    let old := row.getD x ⟨0, 0, 0, 0⟩
    if 0 ≤ srcX then
      let s := row.getD srcX.toNat ⟨0, 0, 0, 0⟩
      ⟨s.r, s.g, s.b, old.a⟩
    else ⟨0, 0, 0, old.a⟩

/-- The target quality step computed each frame in drawDataSea:
7 + Math.floor((1 - energy) * 2 + energy_spread * 4). -/
def targetStepOf (energy spread : ℚ) : ℤ :=
  7 + ⌊(1 - energy) * 2 + spread * 4⌋

/-- The overload bump: 1 when the frame delta exceeded the 28 ms budget. -/
def overloadOf (dt : ℚ) : ℤ :=
  if (28 : ℚ) / 1000 < dt then 1 else 0

/-- The quality-step update in drawDataSea:
qualityStep = clamp(Math.floor(qualityStep * 0.82 + (targetStep + overload) * 0.18), 6, 12). -/
def updateQualityStep (q energy spread dt : ℚ) : ℤ :=
  max 6 (min 12 ⌊q * (82/100) + ((targetStepOf energy spread + overloadOf dt : ℤ) : ℚ) * (18/100)⌋)

/-- A token snapshot entry used by the buy simulation.  Token ids and symbols
are only ever consumed through String(_) equality in sketch.js, so the model
carries them as strings directly. -/
structure SimToken where
  token_id : String
  symbol : String
  energy : ℚ
  activity : ℚ
  momentum : ℚ
  anchor_u : ℚ
  anchor_v : ℚ
deriving DecidableEq, Repr

/-- String(v) for the values that can sit in a token's raw `token_id` or
`symbol` slot; only string-valued ids occur in the verified properties, and
the other cases are simple tags. -/
def jsToString : JSVal → String
  | .str s => s
  | .null => "null"
  | .undefined => "undefined"
  | .bool b => if b then "true" else "false"
  | .num q => if q.den = 1 then toString q.num else toString q
  | .arr _ => ""
  | .obj _ => "object"

/-- The `x || d` fallback applied by snapshotTokensForSimulation to an
already-cooked numeric field: NaN and 0 are falsy, so both fall back. -/
def jnumOrQ (x : JNum) (d : ℚ) : ℚ :=
  match x with
  | .nan => d
  | .num q => if q = 0 then d else q

/-- snapshotTokensForSimulation from sketch.js, over the cooked tokens. -/
def snapshotTokensForSimulation (tokens : List NormToken) : List SimToken :=
  tokens.map fun token =>
    { token_id := jsToString (getField token.raw "token_id")
      symbol := jsToString (jsOr (getField token.raw "symbol") (.str "?"))
      energy := clampQ (jnumOrQ token.energy 0) 0 1
      activity := clampQ (jnumOrQ token.activity 0) 0 1
      momentum := clampQ (jnumOrQ token.momentum 0) (-1) 1
      anchor_u := clampQ (jnumOrQ token.anchor_u (1/2)) 0 1
      anchor_v := clampQ (jnumOrQ token.anchor_v (1/2)) 0 1 }

/-- The buy context assembled in mousePressed and handed to
computeBuySimulation. -/
structure BuyContext where
  selected_token_id : String
  selected_symbol : String
  click_u : ℚ
  click_v : ℚ
  global_energy : ℚ
  momentum_bias : ℚ
  energy_spread : ℚ
  tokens : List SimToken
deriving DecidableEq, Repr

/-- One entry of the `influenced` array built inside computeBuySimulation
(the nested before/after objects are flattened into fields). -/
structure InfluenceRow where
  token_id : String
  symbol : String
  delta_energy : ℚ
  delta_activity : ℚ
  delta_momentum : ℚ
  before_energy : ℚ
  before_activity : ℚ
  before_momentum : ℚ
  after_energy : ℚ
  after_activity : ℚ
  after_momentum : ℚ
deriving DecidableEq, Repr

/-- One entry of the `impact_rows` output of computeBuySimulation. -/
structure ImpactRow where
  token_id : String
  symbol : String
  delta_energy : ℚ
  delta_activity : ℚ
  delta_momentum : ℚ
deriving DecidableEq, Repr

/-- The result object of computeBuySimulation. -/
structure BuySimulation where
  buy_amount : ℚ
  click_u : ℚ
  click_v : ℚ
  selected_token_id : String
  selected_symbol : String
  selected_before : ℚ × ℚ × ℚ
  selected_after : ℚ × ℚ × ℚ
  impact_rows : List ImpactRow
deriving DecidableEq, Repr

/-- Math.max(1, Number(buyAmountRaw || 1)) from computeBuySimulation.  The
raw amount is modelled as an actual number, whose only falsy value is 0. -/
def buyAmountOf (raw : ℚ) : ℚ :=
  max 1 (if raw = 0 then 1 else raw)

/-- The `influenced` array of computeBuySimulation: one row per context
token, with clamped nonnegative deltas and clamped after values. -/
def influencedRows (M : HostMath) (w h : ℚ) (c : BuyContext) (buyAmountRaw : ℚ) :
    List InfluenceRow :=
  let buyAmount := buyAmountOf buyAmountRaw
  let amountScale := clampQ (M.log10 (1 + buyAmount) / 3) 0 (16/10)
  let px := c.click_u * w
  let py := c.click_v * h
  let canvasScale := max 1 (min w h)
  c.tokens.map fun token =>
    let ax := token.anchor_u * w
    let ay := token.anchor_v * h
    let dist := M.hypot (px - ax) (py - ay)
    let nearFactor := clampQ (1 - dist / (canvasScale * (9/10))) 0 1
    let selectedBoost : ℚ := if token.token_id = c.selected_token_id then 145/100 else 55/100
    let spreadLift := 8/100 + c.energy_spread * (42/100)
    let base := amountScale * (nearFactor * selectedBoost + spreadLift)
    let deltaEnergy := clampQ (base * (11/100)) 0 (45/100)
    let deltaActivity := clampQ (base * (9/100)) 0 (4/10)
    let deltaMomentum := clampQ (base * (22/100)) 0 (8/10)
    { token_id := token.token_id
      symbol := token.symbol
      delta_energy := deltaEnergy
      delta_activity := deltaActivity
      delta_momentum := deltaMomentum
      before_energy := token.energy
      before_activity := token.activity
      before_momentum := token.momentum
      after_energy := clampQ (token.energy + deltaEnergy) 0 1
      after_activity := clampQ (token.activity + deltaActivity) 0 1
      after_momentum := clampQ (token.momentum + deltaMomentum) (-1) 1 }

/-- Stable insertion step for the comparator
(b.delta_energy + b.delta_activity) - (a.delta_energy + a.delta_activity):
descending by delta sum. -/
def insertByImpact (r : InfluenceRow) : List InfluenceRow → List InfluenceRow
  | [] => [r]
  | x :: xs =>
    if x.delta_energy + x.delta_activity < r.delta_energy + r.delta_activity then
      r :: x :: xs
    else x :: insertByImpact r xs

/-- The `.slice().sort(comparator)` of computeBuySimulation as a stable
insertion sort (which sorted order the JS engine realises does not affect any
verified property; only membership and the subsequent `.slice(0, 4)` do). -/
def sortByImpact (l : List InfluenceRow) : List InfluenceRow :=
  l.foldr insertByImpact []

/-- computeBuySimulation from sketch.js. -/
def computeBuySimulation (M : HostMath) (w h : ℚ) (context : Option BuyContext)
    (buyAmountRaw : ℚ) : Option BuySimulation :=
  match context with
  | none => none
  | some c =>
    if c.tokens.length = 0 then none
    else
      match c.tokens.find? (fun t => t.token_id == c.selected_token_id) with
      | none => none
      | some _ =>
        let influenced := influencedRows M w h c buyAmountRaw
        match influenced.find? (fun row => row.token_id == c.selected_token_id) with
        | none => none
        | some selectedRow =>
          let impactRows := ((sortByImpact influenced).take 4).map fun row =>
            { token_id := row.token_id
              symbol := row.symbol
              delta_energy := row.delta_energy
              delta_activity := row.delta_activity
              delta_momentum := row.delta_momentum : ImpactRow }
          some
            { buy_amount := buyAmountOf buyAmountRaw
              click_u := c.click_u
              click_v := c.click_v
              selected_token_id := c.selected_token_id
              selected_symbol := c.selected_symbol
              selected_before := (selectedRow.before_energy, selectedRow.before_activity,
                selectedRow.before_momentum)
              selected_after := (selectedRow.after_energy, selectedRow.after_activity,
                selectedRow.after_momentum)
              impact_rows := impactRows }

/-- Array.isArray(v) && v.length > 1, the guard selecting the gradient_map. -/
def bigArr (v : JSVal) : Bool :=
  match asArrList v with
  | some l => decide (1 < l.length)
  | none => false

/-- Characterizes the inputs on which hexToRgb returns its fallback: not a
string, or the cleaned form (first '#' removed, then trimmed) does not have
length 6, or one of the three 2-character slices has no parsable hex digits. -/
def badHexInput (v : JSVal) : Bool :=
  match v with
  | .str s =>
    let h := trimChars (removeFirstHash s.toList)
    decide (h.length ≠ 6) || (parseIntHex (h.take 2)).isNone ||
      (parseIntHex ((h.drop 2).take 2)).isNone || (parseIntHex ((h.drop 4).take 2)).isNone
  | _ => true

/-- A raw field value whose `Number(v || default)` coercion cannot produce
NaN: either it is falsy (so the default is used) or it coerces to an actual
number. -/
def safeVal (v : JSVal) : Bool :=
  !(truthy v) || (toNumber v).isNum

/-- All numeric fields of a raw token record are NaN-safe in the sense of
`safeVal` (the anchor fields are read off token.noise_anchor || default, as
in normalizeState). -/
def tokenFieldsSafe (t : JSVal) : Bool :=
  safeVal (getField t "energy") && safeVal (getField t "momentum") &&
  safeVal (getField t "activity") && safeVal (getField t "phase") &&
  safeVal (getField t "frequency") && safeVal (getField t "noise_seed") &&
  safeVal (getField (jsOr (getField t "noise_anchor") anchorDefault) "u") &&
  safeVal (getField (jsOr (getField t "noise_anchor") anchorDefault) "v")

/-- The document-level numeric fields are NaN-safe. -/
def docFieldsSafe (json : JSVal) : Bool :=
  safeVal (getField json "global_energy") && safeVal (getField json "momentum_bias") &&
  safeVal (getField json "energy_spread")

/-- All normalized numeric fields of a cooked token are actual numbers. -/
def tokenNoNaN (tok : NormToken) : Bool :=
  tok.energy.isNum && tok.momentum.isNum && tok.activity.isNum && tok.phase.isNum &&
  tok.frequency.isNum && tok.noise_seed.isNum && tok.anchor_u.isNum && tok.anchor_v.isNum

/-- A concrete interpretation of the host math primitives, used to
instantiate universally quantified theorems on concrete inputs. -/
def trivMath : HostMath :=
  { noise := fun _ _ _ => 0
    sin := fun _ => 0
    cos := fun _ => 0
    atan2 := fun _ _ => 0
    hypot := fun _ _ => 0
    powf := fun _ _ => 0
    log10 := fun _ => 0
    twoPi := 0 }

/-- The document of the spec's ingestion scenario:
left-brace active_tokens: [ left-brace energy: 2, momentum: -3,
gradient_map: ["#ZZZZZZ"] right-brace ] right-brace. -/
def scenarioDoc : JSVal :=
  .obj [("active_tokens", .arr [.obj
    [("energy", .num 2), ("momentum", .num (-3)),
     ("gradient_map", .arr [.str "#ZZZZZZ"])]])]

/-- A document whose single token carries a truthy non-numeric energy. -/
def nanEnergyDoc : JSVal :=
  .obj [("active_tokens", .arr [.obj [("energy", .str "abc")]])]

/-- A document whose single token carries an empty palette array. -/
def emptyPaletteDoc : JSVal :=
  .obj [("active_tokens", .arr [.obj [("palette", .arr [])]])]

/-- A state with no influence sources. -/
def emptyState : NormState := normalizeState (.obj [])

/-- A document whose numeric fields are all explicit integers (including the
noise anchor), used to instantiate NaN-safety at a concrete input. -/
def safeDoc : JSVal :=
  .obj [("global_energy", .num 1), ("momentum_bias", .num 0), ("energy_spread", .num 1),
        ("active_tokens", .arr [.obj
          [("energy", .num 1), ("momentum", .num (-1)), ("activity", .num 1),
           ("phase", .num 2), ("frequency", .num 1), ("noise_seed", .num 7),
           ("noise_anchor", .obj [("u", .num 1), ("v", .num 1)])]])]

/-- A concrete cooked token with token_id "a", for witnesses. -/
def sampleCooked : NormToken := cookToken (.obj [("token_id", .str "a")])

/-- A concrete buy context over the snapshot of `sampleCooked`. -/
def sampleBuyContext : BuyContext :=
  { selected_token_id := "a"
    selected_symbol := "?"
    click_u := 1/2
    click_v := 1/2
    global_energy := 0
    momentum_bias := 0
    energy_spread := 0
    tokens := snapshotTokensForSimulation [sampleCooked] }

/-- A concrete two-stop token for gradient-sampling witnesses. -/
def twoStopToken : NormToken :=
  { raw := .obj []
    energy := .num 0
    momentum := .num 0
    activity := .num 0
    phase := .num 0
    frequency := .num 0
    noise_seed := .num 0
    anchor_u := .num 0
    anchor_v := .num 0
    gradient_rgb := [(0, 0, 0), (100, 200, 50)] }

theorem clampQ_lo_le (v lo hi : ℚ) : lo ≤ clampQ v lo hi := le_max_left _ _

theorem clampQ_le_hi (v lo hi : ℚ) (h : lo ≤ hi) : clampQ v lo hi ≤ hi :=
  max_le h (min_le_left _ _)

theorem le_clampQ_add (x d lo hi : ℚ) (hx : x ≤ hi) (hd : 0 ≤ d) :
    x ≤ clampQ (x + d) lo hi :=
  le_max_of_le_right (le_min hx (by linarith))

theorem asArrList_eq_some (v : JSVal) (l : List JSVal) :
    asArrList v = some l ↔ v = .arr l := by
  cases v <;> simp [asArrList]

/-- C1.  The spec's scenario is wrong on the gradient: a gradient_map with a
single entry does not meet the `length > 1` guard, so normalizeState falls
back to the 3-color default palette, not to the single fallback triple
(120, 130, 150). -/
theorem scenario_ingest_counterexample :
    ((normalizeState scenarioDoc).cooked.map fun t => (t.energy, t.momentum, t.gradient_rgb)) ≠
      [(JNum.num 1, JNum.num (-1), [((120 : ℚ), (130 : ℚ), (150 : ℚ))])] := by
  decide

/-- C1 (amended).  Ingesting the scenario document yields energy 1 and
momentum -1 as claimed, but the resolved gradient is the default 3-stop
list [(51,68,85), (136,153,170), (230,238,248)] because the single-entry
gradient_map is ignored. -/
theorem scenario_ingest_amended :
    ((normalizeState scenarioDoc).cooked.map fun t => (t.energy, t.momentum, t.gradient_rgb)) =
      [(JNum.num 1, JNum.num (-1),
        [((51 : ℚ), (68 : ℚ), (85 : ℚ)), (136, 153, 170), (230, 238, 248)])] := by
  decide

/-- C2.  The claim fails: a truthy non-numeric energy field (the string
"abc") passes the `|| 0` falsy guard, Number coerces it to NaN, and clamp
propagates the NaN into the normalized token. -/
theorem normalize_nan_counterexample :
    ((normalizeState nanEnergyDoc).cooked.map fun t => t.energy) = [JNum.nan] := by
  decide

/-- C4.  The claim fails: a token whose palette is the empty array (and
whose gradient_map has at most one entry) normalizes to an empty gradient. -/
theorem empty_palette_counterexample :
    ((normalizeState emptyPaletteDoc).cooked.map fun t => t.gradient_rgb) = [[]] := by
  decide

/-- C4 (amended).  The resolved gradient of a normalized token is empty
exactly when the gradient_map guard (array of more than one entry) fails and
the palette field is an empty array; in every other case — gradient_map with
at least 2 entries, non-empty array palette, or the fixed 3-color default —
it has length at least 1. -/
theorem gradient_resolution_empty_iff (token : JSVal) :
    (cookToken token).gradient_rgb = [] ↔
      (bigArr (getField token "gradient_map") = false ∧
        getField token "palette" = JSVal.arr []) := by
  have hg : (cookToken token).gradient_rgb = (chooseGradient token).map hexToRgb := rfl
  rw [hg, List.map_eq_nil_iff]
  unfold chooseGradient bigArr
  cases hgm : asArrList (getField token "gradient_map") with
  | some l =>
    by_cases hl : 1 < l.length
    · have hne : l ≠ [] := by
        intro he
        rw [he] at hl
        simp at hl
      simp [hl, hne]
    · simp only [if_neg hl, decide_eq_false hl]
      unfold paletteOrDefault
      cases hp : asArrList (getField token "palette") with
      | some p =>
        rw [asArrList_eq_some] at hp
        simp [hp]
      | none =>
        have : getField token "palette" ≠ JSVal.arr [] := by
          intro he
          rw [← asArrList_eq_some] at he
          rw [he] at hp
          exact Option.noConfusion hp
        simp [this]
  | none =>
    unfold paletteOrDefault
    cases hp : asArrList (getField token "palette") with
    | some p =>
      rw [asArrList_eq_some] at hp
      simp [hp]
    | none =>
      have : getField token "palette" ≠ JSVal.arr [] := by
        intro he
        rw [← asArrList_eq_some] at he
        rw [he] at hp
        exact Option.noConfusion hp
      simp [this]

/-- C3.  The claim fails: parseInt(_, 16) parses the longest numeric prefix
of each 2-character slice, so the 6-character string "12345Z" — which does
contain a non-hex character — converts to (18, 52, 5), not the fallback. -/
theorem hexToRgb_nonhex_counterexample :
    hexToRgb (.str "12345Z") = ((18 : ℚ), (52 : ℚ), (5 : ℚ)) ∧
      hexToRgb (.str "12345Z") ≠ ((120 : ℚ), (130 : ℚ), (150 : ℚ)) := by
  decide

/-- C3 (amended).  hexToRgb returns the fixed fallback (120, 130, 150)
whenever the input is not a string, or the cleaned string (first '#'
removed, then trimmed) does not have exactly 6 characters, or one of the
three 2-character slices has no parsable leading hex digits. -/
theorem hexToRgb_fallback (v : JSVal) (hb : badHexInput v = true) :
    hexToRgb v = (120, 130, 150) := by
  cases v with
  | str s =>
    simp only [badHexInput, String.toList] at hb
    simp only [hexToRgb, String.toList]
    by_cases hlen : (trimChars (removeFirstHash s.data)).length = 6
    · have hd : decide ((trimChars (removeFirstHash s.data)).length ≠ 6) = false := by
        simp [hlen]
      rw [hd] at hb
      simp only [Bool.false_or] at hb
      rw [if_neg (by simp [hlen])]
      rcases h1 : parseIntHex ((trimChars (removeFirstHash s.data)).take 2) with _ | r
      · simp [h1]
      rcases h2 : parseIntHex (((trimChars (removeFirstHash s.data)).drop 2).take 2) with _ | g
      · simp [h1, h2]
      rcases h3 : parseIntHex (((trimChars (removeFirstHash s.data)).drop 4).take 2) with _ | b
      · simp [h1, h2, h3]
      · rw [h1, h2, h3] at hb
        simp at hb
    · simp [hlen]
  | undefined => rfl
  | null => rfl
  | bool b => rfl
  | num q => rfl
  | arr l => rfl
  | obj kvs => rfl

theorem hexToRgb_fallback_witness :
    badHexInput (.num 5) = true ∧ hexToRgb (.num 5) = (120, 130, 150) :=
  ⟨rfl, hexToRgb_fallback (.num 5) rfl⟩

/-- C5.  Ingestion retains the previous state on every failure: when the
parsed document's active_tokens is not an array, and on every transport,
HTTP-status or JSON-parse failure; being a total function, the model also
reflects that no error escapes (the JS body is wrapped in try/catch). -/
theorem ingest_keeps_state_on_invalid (prev : NormState) :
    (∀ j : JSVal, isArr (getField j "active_tokens") = false →
        loadConfig prev (.okJson j) = prev) ∧
    loadConfig prev .fetchError = prev ∧
    loadConfig prev .notOk = prev ∧
    loadConfig prev .jsonError = prev := by
  refine ⟨fun j hj => ?_, rfl, rfl, rfl⟩
  simp [loadConfig, hj]

theorem ingest_keeps_state_witness :
    loadConfig emptyState (.okJson (.obj [("active_tokens", .num 3)])) = emptyState :=
  (ingest_keeps_state_on_invalid emptyState).1 _ rfl

/-- C9.  With zero influence sources the flow-field sampler returns the zero
vector and the color mixer returns the fixed dark fallback color
(10, 16, 30), for every point, time, canvas size and interpretation of the
host math primitives. -/
theorem zero_sources_defaults (M : HostMath) (st : NormState) (w h px py t : ℚ)
    (hz : st.cooked = []) :
    flowVectorAt M st w h px py t = (.num 0, .num 0) ∧
    mixedSeaColor M st w h px py t = numTriple (10, 16, 30) := by
  constructor
  · simp only [flowVectorAt, hz, List.foldl_nil]
    norm_num [jle]
  · simp only [mixedSeaColor, hz, List.length_nil]
    norm_num

theorem zero_sources_defaults_witness :
    flowVectorAt trivMath emptyState 100 100 0 0 0 = (.num 0, .num 0) ∧
    mixedSeaColor trivMath emptyState 100 100 0 0 0 = numTriple (10, 16, 30) :=
  zero_sources_defaults trivMath emptyState 100 100 0 0 0 rfl

theorem safeVal_or_isNum (v : JSVal) (d : ℚ) (h : safeVal v = true) :
    (toNumber (jsOr v (.num d))).isNum = true := by
  unfold jsOr
  by_cases ht : truthy v = true
  · rw [if_pos ht]
    unfold safeVal at h
    rw [ht] at h
    simpa using h
  · rw [if_neg ht]
    rfl

theorem clampJ_isNum (x : JNum) (lo hi : ℚ) (h : x.isNum = true) :
    (clampJ x (.num lo) (.num hi)).isNum = true := by
  cases x with
  | nan => simp [JNum.isNum] at h
  | num q => rfl

/-- C2 (amended).  Normalization produces no NaN in any normalized numeric
field — document-level global_energy / momentum_bias / energy_spread and the
per-token energy, momentum, activity, phase, frequency, noise_seed and
anchor u/v — provided every one of those raw fields is either falsy (absent,
null, 0, empty string, false: the `|| default` guard substitutes the
documented default) or coerces to an actual number.  A truthy non-numeric
value (for example the string "abc") defeats the guard and the NaN reaches
the normalized state. -/
theorem normalizeState_no_nan (json : JSVal)
    (hdoc : docFieldsSafe json = true)
    (htok : ∀ t ∈ (normalizeState json).active_tokens, tokenFieldsSafe t = true) :
    (normalizeState json).global_energy.isNum = true ∧
    (normalizeState json).momentum_bias.isNum = true ∧
    (normalizeState json).energy_spread.isNum = true ∧
    ∀ tok ∈ (normalizeState json).cooked, tokenNoNaN tok = true := by
  unfold docFieldsSafe at hdoc
  simp only [Bool.and_eq_true] at hdoc
  obtain ⟨⟨h1, h2⟩, h3⟩ := hdoc
  refine ⟨clampJ_isNum _ _ _ (safeVal_or_isNum _ _ h1),
    clampJ_isNum _ _ _ (safeVal_or_isNum _ _ h2),
    clampJ_isNum _ _ _ (safeVal_or_isNum _ _ h3), ?_⟩
  intro tok htk
  have hcooked : (normalizeState json).cooked = (normalizeState json).active_tokens.map cookToken := rfl
  rw [hcooked] at htk
  obtain ⟨t, ht, rfl⟩ := List.mem_map.mp htk
  have hts := htok t ht
  unfold tokenFieldsSafe at hts
  simp only [Bool.and_eq_true] at hts
  obtain ⟨⟨⟨⟨⟨⟨⟨he, hm⟩, ha⟩, hp⟩, hf⟩, hn⟩, hu⟩, hv⟩ := hts
  unfold tokenNoNaN
  simp only [Bool.and_eq_true]
  exact ⟨⟨⟨⟨⟨⟨⟨clampJ_isNum _ _ _ (safeVal_or_isNum _ _ he),
    clampJ_isNum _ _ _ (safeVal_or_isNum _ _ hm)⟩,
    clampJ_isNum _ _ _ (safeVal_or_isNum _ _ ha)⟩,
    safeVal_or_isNum _ _ hp⟩,
    safeVal_or_isNum _ _ hf⟩,
    safeVal_or_isNum _ _ hn⟩,
    clampJ_isNum _ _ _ (safeVal_or_isNum _ _ hu)⟩,
    clampJ_isNum _ _ _ (safeVal_or_isNum _ _ hv)⟩

theorem normalizeState_no_nan_witness :
    (normalizeState safeDoc).global_energy.isNum = true ∧
    (normalizeState safeDoc).momentum_bias.isNum = true ∧
    (normalizeState safeDoc).energy_spread.isNum = true ∧
    ∀ tok ∈ (normalizeState safeDoc).cooked, tokenNoNaN tok = true :=
  normalizeState_no_nan safeDoc (by decide) (by decide)

theorem clampQ_id_of_mem (t : ℚ) (h0 : 0 ≤ t) (h1 : t ≤ 1) : clampQ t 0 1 = t := by
  unfold clampQ
  rw [min_eq_right h1, max_eq_right h0]

theorem clampJ_num (x lo hi : ℚ) : clampJ (.num x) (.num lo) (.num hi) = .num (clampQ x lo hi) := rfl

theorem jmul_num (a b : ℚ) : jmul (.num a) (.num b) = .num (a * b) := rfl

theorem jadd_num (a b : ℚ) : jadd (.num a) (.num b) = .num (a + b) := rfl

theorem jsub_num (a b : ℚ) : jsub (.num a) (.num b) = .num (a - b) := rfl

theorem jmin_num (a b : ℚ) : jmin (.num a) (.num b) = .num (min a b) := rfl

theorem jfloor_num (q : ℚ) : jfloor (.num q) = .num ((⌊q⌋ : ℤ) : ℚ) := rfl

theorem getColorAt_natCast (g : List (ℚ × ℚ × ℚ)) (i : ℕ) :
    getColorAt g (.num (i : ℚ)) = g.getD i (0, 0, 0) := by
  simp [getColorAt, Int.floor_natCast]

theorem lerpRGB_eval (a b : ℚ × ℚ × ℚ) (s : ℚ) (h0 : 0 ≤ s) (h1 : s ≤ 1) :
    lerpRGB a b (.num s) =
      (.num (a.1 + (b.1 - a.1) * s), .num (a.2.1 + (b.2.1 - a.2.1) * s),
       .num (a.2.2 + (b.2.2 - a.2.2) * s)) := by
  unfold lerpRGB
  rw [clampJ_num, clampQ_id_of_mem s h0 h1]
  rfl

theorem lerpRGB_zero (a b : ℚ × ℚ × ℚ) : lerpRGB a b (.num 0) = numTriple a := by
  rw [lerpRGB_eval a b 0 le_rfl zero_le_one]
  simp [numTriple]

theorem sampleGradient_bracket (tok : NormToken) (t : ℚ) (i : ℕ)
    (h0 : 0 ≤ t) (h1 : t ≤ 1)
    (hlo : (i : ℚ) ≤ t * ((tok.gradient_rgb.length : ℚ) - 1))
    (hhi : t * ((tok.gradient_rgb.length : ℚ) - 1) < (i : ℚ) + 1)
    (hile : i + 1 ≤ tok.gradient_rgb.length - 1) :
    sampleGradientRGB tok (.num t) =
      lerpRGB (tok.gradient_rgb.getD i (0, 0, 0)) (tok.gradient_rgb.getD (i + 1) (0, 0, 0))
        (.num (t * ((tok.gradient_rgb.length : ℚ) - 1) - (i : ℚ))) := by
  have hn2 : 2 ≤ tok.gradient_rgb.length := by omega
  have hne0 : ¬(tok.gradient_rgb.length = 0) := by omega
  have hne1 : ¬(tok.gradient_rgb.length = 1) := by omega
  simp only [sampleGradientRGB, if_neg hne0, if_neg hne1]
  rw [clampJ_num, clampQ_id_of_mem t h0 h1, jmul_num]
  have hfl : ⌊t * ((tok.gradient_rgb.length : ℚ) - 1)⌋ = (i : ℤ) := by
    rw [Int.floor_eq_iff]
    constructor
    · exact_mod_cast hlo
    · push_cast
      exact hhi
  rw [jfloor_num, hfl]
  have hcast : ((i : ℤ) : ℚ) = ((i : ℕ) : ℚ) := by push_cast; rfl
  rw [hcast, getColorAt_natCast, jadd_num]
  have hmin : min ((tok.gradient_rgb.length : ℚ) - 1) ((i : ℚ) + 1) = (i : ℚ) + 1 := by
    apply min_eq_right
    have : ((i + 1 : ℕ) : ℚ) ≤ ((tok.gradient_rgb.length - 1 : ℕ) : ℚ) := by
      exact_mod_cast hile
    push_cast [Nat.cast_sub (by omega : 1 ≤ tok.gradient_rgb.length)] at this
    linarith
  rw [jmin_num, hmin]
  have hip : ((i : ℚ) + 1) = ((i + 1 : ℕ) : ℚ) := by push_cast; rfl
  rw [hip, getColorAt_natCast, jsub_num]

/-- C6.  For any token with at least one resolved gradient stop: sampling at
t = 0 returns the first stop, sampling at t = 1 returns the last stop, and
for any t in [0,1] whose scaled position lies in the bracket [i, i+1) with
i+1 a valid stop index, sampling returns lerpRGB of the two bracketing stops
at the fractional position within the pair — and lerpRGB on a fraction in
[0,1] is exactly componentwise linear interpolation. -/
theorem sampleGradient_endpoints_and_interp (tok : NormToken)
    (hlen : 1 ≤ tok.gradient_rgb.length) :
    sampleGradientRGB tok (.num 0) = numTriple (tok.gradient_rgb.getD 0 (0, 0, 0)) ∧
    sampleGradientRGB tok (.num 1) =
      numTriple (tok.gradient_rgb.getD (tok.gradient_rgb.length - 1) (0, 0, 0)) ∧
    (∀ (t : ℚ) (i : ℕ), 0 ≤ t → t ≤ 1 →
      (i : ℚ) ≤ t * ((tok.gradient_rgb.length : ℚ) - 1) →
      t * ((tok.gradient_rgb.length : ℚ) - 1) < (i : ℚ) + 1 →
      i + 1 ≤ tok.gradient_rgb.length - 1 →
      sampleGradientRGB tok (.num t) =
        lerpRGB (tok.gradient_rgb.getD i (0, 0, 0))
          (tok.gradient_rgb.getD (i + 1) (0, 0, 0))
          (.num (t * ((tok.gradient_rgb.length : ℚ) - 1) - (i : ℚ)))) ∧
    (∀ (a b : ℚ × ℚ × ℚ) (s : ℚ), 0 ≤ s → s ≤ 1 →
      lerpRGB a b (.num s) =
        (.num (a.1 + (b.1 - a.1) * s), .num (a.2.1 + (b.2.1 - a.2.1) * s),
         .num (a.2.2 + (b.2.2 - a.2.2) * s))) := by
  have hne0 : ¬(tok.gradient_rgb.length = 0) := by omega
  refine ⟨?_, ?_, fun t i h0 h1 hlo hhi hile =>
    sampleGradient_bracket tok t i h0 h1 hlo hhi hile,
    fun a b s h0 h1 => lerpRGB_eval a b s h0 h1⟩
  · by_cases hn1 : tok.gradient_rgb.length = 1
    · simp only [sampleGradientRGB, if_neg hne0, if_pos hn1]
    · have h2 : 2 ≤ tok.gradient_rgb.length := by omega
      have := sampleGradient_bracket tok 0 0 le_rfl zero_le_one
        (by simp) (by norm_num) (by omega)
      rw [this]
      norm_num [lerpRGB_zero]
  · by_cases hn1 : tok.gradient_rgb.length = 1
    · have h0 : tok.gradient_rgb.length - 1 = 0 := by omega
      rw [h0]
      simp [sampleGradientRGB, if_neg hne0, hn1]
    · have h2 : 2 ≤ tok.gradient_rgb.length := by omega
      simp only [sampleGradientRGB, if_neg hne0, if_neg hn1]
      rw [clampJ_num, clampQ_id_of_mem 1 zero_le_one le_rfl, jmul_num, one_mul]
      have hcast : ((tok.gradient_rgb.length : ℚ) - 1) = ((tok.gradient_rgb.length - 1 : ℕ) : ℚ) := by
        push_cast [Nat.cast_sub (by omega : 1 ≤ tok.gradient_rgb.length)]
        ring
      rw [hcast, jfloor_num, Int.floor_natCast]
      have hc2 : (((tok.gradient_rgb.length - 1 : ℕ) : ℤ) : ℚ) = ((tok.gradient_rgb.length - 1 : ℕ) : ℚ) := by
        push_cast
        rfl
      rw [hc2, getColorAt_natCast, jadd_num]
      have hmin : min ((tok.gradient_rgb.length - 1 : ℕ) : ℚ) (((tok.gradient_rgb.length - 1 : ℕ) : ℚ) + 1) =
          ((tok.gradient_rgb.length - 1 : ℕ) : ℚ) := by
        apply min_eq_left
        linarith
      rw [jmin_num, hmin, getColorAt_natCast, jsub_num, sub_self, lerpRGB_zero]

theorem sampleGradient_witness :
    sampleGradientRGB twoStopToken (.num 0) = numTriple (0, 0, 0) ∧
    sampleGradientRGB twoStopToken (.num 1) = numTriple (100, 200, 50) ∧
    sampleGradientRGB twoStopToken (.num (1/2)) =
      (.num 50, .num 100, .num 25) := by
  have h := sampleGradient_endpoints_and_interp twoStopToken (by decide)
  refine ⟨h.1.trans (by decide), h.2.1.trans (by decide), ?_⟩
  have hb := h.2.2.1 (1/2) 0 (by norm_num) (by norm_num) (by norm_num [twoStopToken])
    (by norm_num [twoStopToken]) (by norm_num [twoStopToken])
  have hg0 : twoStopToken.gradient_rgb.getD 0 (0, 0, 0) = ((0 : ℚ), (0 : ℚ), (0 : ℚ)) := rfl
  have hg1 : twoStopToken.gradient_rgb.getD (0 + 1) (0, 0, 0) =
      ((100 : ℚ), (200 : ℚ), (50 : ℚ)) := rfl
  have hs : (1/2 : ℚ) * ((twoStopToken.gradient_rgb.length : ℚ) - 1) - ((0 : ℕ) : ℚ) =
      (1/2 : ℚ) := by
    norm_num [twoStopToken]
  rw [hb, hg0, hg1, hs, lerpRGB_eval _ _ _ (by norm_num) (by norm_num)]
  norm_num

theorem glitchShiftRow_length (row : List Pix) (s : ℤ) :
    (glitchShiftRow row s).length = row.length := by
  simp [glitchShiftRow]

theorem glitchShiftRow_getD (row : List Pix) (s : ℤ) (hs : 0 ≤ s) (x : ℕ)
    (hx : x < row.length) :
    (glitchShiftRow row s).getD x ⟨0, 0, 0, 0⟩ =
      ⟨(row.getD ((((x : ℤ) + s + row.length) % (row.length : ℤ)).toNat) ⟨0, 0, 0, 0⟩).r,
       (row.getD ((((x : ℤ) + s + row.length) % (row.length : ℤ)).toNat) ⟨0, 0, 0, 0⟩).g,
       (row.getD ((((x : ℤ) + s + row.length) % (row.length : ℤ)).toNat) ⟨0, 0, 0, 0⟩).b,
       (row.getD x ⟨0, 0, 0, 0⟩).a⟩ := by
  have hx2 : x < (glitchShiftRow row s).length := by
    rw [glitchShiftRow_length]
    exact hx
  rw [List.getD_eq_getElem _ _ hx2]
  simp only [glitchShiftRow, List.getElem_map, List.getElem_range]
  rw [Int.tmod_eq_emod (by omega) (by omega)]
  rw [if_pos (Int.emod_nonneg _ (by omega))]

theorem glitchShiftRow_roundtrip_getD (row : List Pix) (N : ℕ) (hw : 0 < row.length)
    (x : ℕ) (hx : x < row.length) :
    (glitchShiftRow (glitchShiftRow row (N : ℤ))
        (((row.length : ℤ) - (N : ℤ)) % (row.length : ℤ))).getD x ⟨0, 0, 0, 0⟩ =
      row.getD x ⟨0, 0, 0, 0⟩ := by
  have hwz : ((row.length : ℤ)) ≠ 0 := by omega
  set M : ℤ := ((row.length : ℤ) - (N : ℤ)) % (row.length : ℤ) with hMeq
  have hM0 : 0 ≤ M := Int.emod_nonneg _ hwz
  have hx1 : x < (glitchShiftRow row (N : ℤ)).length := by
    rw [glitchShiftRow_length]
    exact hx
  rw [glitchShiftRow_getD _ M hM0 x hx1]
  rw [glitchShiftRow_length]
  set E : ℤ := ((x : ℤ) + M + row.length) % (row.length : ℤ) with hEeq
  have hE0 : 0 ≤ E := Int.emod_nonneg _ hwz
  have hEw : E < (row.length : ℤ) := Int.emod_lt_of_pos _ (by omega)
  have hyw : E.toNat < row.length := by omega
  rw [glitchShiftRow_getD _ (N : ℤ) (by omega) E.toNat hyw]
  have hzx : (((E.toNat : ℤ) + (N : ℤ) + row.length) % (row.length : ℤ)).toNat = x := by
    have hcastE : ((E.toNat : ℤ)) = E := Int.toNat_of_nonneg hE0
    have hq1 : E = ((x : ℤ) + M + row.length) -
        (row.length : ℤ) * (((x : ℤ) + M + row.length) / (row.length : ℤ)) := by
      rw [hEeq, Int.emod_def]
    have hq2 : M = ((row.length : ℤ) - (N : ℤ)) -
        (row.length : ℤ) * (((row.length : ℤ) - (N : ℤ)) / (row.length : ℤ)) := by
      rw [hMeq, Int.emod_def]
    have hsum : (E.toNat : ℤ) + (N : ℤ) + row.length =
        (x : ℤ) + (row.length : ℤ) *
          (3 - (((row.length : ℤ) - (N : ℤ)) / (row.length : ℤ)) -
            (((x : ℤ) + M + row.length) / (row.length : ℤ))) := by
      rw [hcastE, hq1]
      rw [hq2]
      ring
    rw [hsum, Int.add_mul_emod_self_left]
    have hxx : ((x : ℤ)) % (row.length : ℤ) = (x : ℤ) :=
      Int.emod_eq_of_lt (by omega) (by omega)
    omega
  rw [hzx]
  rw [glitchShiftRow_getD _ (N : ℤ) (by omega) x hx]

/-- C7.  The glitch row shift is circular: for any pixel row and any shift
amount N, shifting by N and then by (width - N) mod width restores the
original row pixel-for-pixel (alpha is never written and the R, G, B
channels return to their sources). -/
theorem glitch_shift_roundtrip (row : List Pix) (N : ℕ) (hw : 0 < row.length) :
    glitchShiftRow (glitchShiftRow row (N : ℤ))
      (((row.length : ℤ) - (N : ℤ)) % (row.length : ℤ)) = row := by
  apply List.ext_getElem
  · rw [glitchShiftRow_length, glitchShiftRow_length]
  · intro i h1 h2
    have hkey := glitchShiftRow_roundtrip_getD row N hw i h2
    rw [List.getD_eq_getElem _ _ h1, List.getD_eq_getElem _ _ h2] at hkey
    exact hkey

theorem glitch_shift_roundtrip_witness :
    glitchShiftRow (glitchShiftRow [(⟨1, 2, 3, 4⟩ : Pix), ⟨5, 6, 7, 8⟩, ⟨9, 10, 11, 12⟩] (2 : ℤ))
      ((((3 : ℕ) : ℤ) - ((2 : ℕ) : ℤ)) % ((3 : ℕ) : ℤ)) =
      [(⟨1, 2, 3, 4⟩ : Pix), ⟨5, 6, 7, 8⟩, ⟨9, 10, 11, 12⟩] := by
  have h := glitch_shift_roundtrip [(⟨1, 2, 3, 4⟩ : Pix), ⟨5, 6, 7, 8⟩, ⟨9, 10, 11, 12⟩] 2
    (by decide)
  simpa using h

theorem updateQualityStep_bounds (q e s dt : ℚ) :
    6 ≤ updateQualityStep q e s dt ∧ updateQualityStep q e s dt ≤ 12 :=
  ⟨le_max_left _ _, max_le (by norm_num) (min_le_left _ _)⟩

/-- C8.  The quality-step update always lands in the clamp range [6, 12]
(so an over-budget frame can never push it past the clamp); an over-budget
frame (dt above the 28 ms budget) raises the smoothing target by exactly
one; and on an under-budget frame, from any integer step in [6, 12] and any
normalized energy/spread in range, the update moves the step weakly closer
to the clamped target max 6 (min 12 targetStep): the smoothing converges
toward, and stays within, the clamp range. -/
theorem qualityStep_clamped_and_converges :
    (∀ q e s dt : ℚ, 6 ≤ updateQualityStep q e s dt ∧ updateQualityStep q e s dt ≤ 12) ∧
    (∀ dt : ℚ, 28/1000 < dt → ∀ e s : ℚ,
      targetStepOf e s + overloadOf dt = targetStepOf e s + 1) ∧
    (∀ (q : ℤ) (e s dt : ℚ), dt ≤ 28/1000 → 0 ≤ e → e ≤ 1 → 0 ≤ s → s ≤ 1 →
      6 ≤ q → q ≤ 12 →
      |updateQualityStep (q : ℚ) e s dt - max 6 (min 12 (targetStepOf e s))| ≤
        |q - max 6 (min 12 (targetStepOf e s))|) := by
  refine ⟨updateQualityStep_bounds, ?_, ?_⟩
  · intro dt hdt e s
    rw [overloadOf, if_pos hdt]
  · intro q e s dt hdt he0 he1 hs0 hs1 hq6 hq12
    have hov : overloadOf dt = 0 := by
      rw [overloadOf, if_neg (not_lt.mpr hdt)]
    rw [updateQualityStep, hov, add_zero]
    set T := targetStepOf e s with hT
    have hT7 : 7 ≤ T := by
      rw [hT, targetStepOf]
      have hfl : (0 : ℤ) ≤ ⌊(1 - e) * 2 + s * 4⌋ := by
        apply Int.le_floor.mpr
        push_cast
        nlinarith
      omega
    have hT13 : T ≤ 13 := by
      rw [hT, targetStepOf]
      have hle : (1 - e) * 2 + s * 4 ≤ ((6 : ℤ) : ℚ) := by
        push_cast
        nlinarith
      have hfl : ⌊(1 - e) * 2 + s * 4⌋ ≤ (6 : ℤ) := by
        calc ⌊(1 - e) * 2 + s * 4⌋ ≤ ⌊((6 : ℤ) : ℚ)⌋ := Int.floor_le_floor hle
        _ = 6 := Int.floor_intCast 6
      omega
    set Tc := max 6 (min 12 T) with hTc
    have hTc6 : 6 ≤ Tc := le_max_left _ _
    have hTc12 : Tc ≤ 12 := max_le (by norm_num) (min_le_left _ _)
    set F := ⌊(q : ℚ) * (82/100) + (T : ℚ) * (18/100)⌋ with hF
    rcases le_or_lt q Tc with hcase | hcase
    · have hTcT : Tc ≤ T := max_le (by omega) (min_le_right _ _)
      have hqT : q ≤ T := le_trans hcase hTcT
      have hqTq : (q : ℚ) ≤ (T : ℚ) := by exact_mod_cast hqT
      have hFq : q ≤ F := by
        rw [hF]
        apply Int.le_floor.mpr
        nlinarith
      have hFTc : F ≤ Tc := by
        rcases le_or_lt T 12 with h12 | h12
        · have hTcEq : Tc = T := by
            rw [hTc, min_eq_right h12, max_eq_right (by omega)]
          rw [hTcEq, hF]
          have hle : (q : ℚ) * (82/100) + (T : ℚ) * (18/100) ≤ ((T : ℤ) : ℚ) := by
            nlinarith
          calc ⌊(q : ℚ) * (82/100) + (T : ℚ) * (18/100)⌋ ≤ ⌊((T : ℤ) : ℚ)⌋ :=
              Int.floor_le_floor hle
          _ = T := Int.floor_intCast T
        · have hT13e : T = 13 := by omega
          have hTcEq : Tc = 12 := by
            rw [hTc, hT13e]
            norm_num
          rw [hTcEq, hF]
          have hq' : (q : ℚ) ≤ 12 := by exact_mod_cast hq12
          have hlt : (q : ℚ) * (82/100) + (T : ℚ) * (18/100) < ((13 : ℤ) : ℚ) := by
            rw [hT13e]
            push_cast
            nlinarith
          have : ⌊(q : ℚ) * (82/100) + (T : ℚ) * (18/100)⌋ < (13 : ℤ) :=
            Int.floor_lt.mpr hlt
          omega
      have hu : max 6 (min 12 F) = F := by
        rw [min_eq_right (by omega), max_eq_right (by omega)]
      rw [hu]
      rw [abs_of_nonpos (by omega), abs_of_nonpos (by omega)]
      omega
    · have hT11 : T ≤ 11 := by
        by_contra hcon
        push_neg at hcon
        have hmin : min 12 T = 12 := min_eq_left (by omega)
        have : Tc = 12 := by
          rw [hTc, hmin]
          norm_num
        omega
      have hTcT : Tc = T := by
        rw [hTc, min_eq_right (by omega), max_eq_right (by omega)]
      have hTq : T < q := by omega
      have hTqQ : (T : ℚ) < (q : ℚ) := by exact_mod_cast hTq
      have hFT : T ≤ F := by
        rw [hF]
        apply Int.le_floor.mpr
        nlinarith
      have hFq : F < q := by
        rw [hF]
        apply Int.floor_lt.mpr
        nlinarith
      have hu : max 6 (min 12 F) = F := by
        rw [min_eq_right (by omega), max_eq_right (by omega)]
      rw [hu]
      rw [abs_of_nonneg (by omega), abs_of_nonneg (by omega)]
      omega

theorem qualityStep_witness :
    (6 ≤ updateQualityStep 8 0 0 (16/1000) ∧ updateQualityStep 8 0 0 (16/1000) ≤ 12) ∧
    targetStepOf 0 0 + overloadOf (30/1000) = targetStepOf 0 0 + 1 ∧
    |updateQualityStep ((8 : ℤ) : ℚ) 0 0 (16/1000) - max 6 (min 12 (targetStepOf 0 0))| ≤
      |(8 : ℤ) - max 6 (min 12 (targetStepOf 0 0))| :=
  ⟨qualityStep_clamped_and_converges.1 8 0 0 (16/1000),
   qualityStep_clamped_and_converges.2.1 (30/1000) (by norm_num) 0 0,
   qualityStep_clamped_and_converges.2.2 8 0 0 (16/1000) (by norm_num) le_rfl zero_le_one
     le_rfl zero_le_one (by norm_num) (by norm_num)⟩

theorem snapshot_bounds (ts : List NormToken) :
    ∀ t ∈ snapshotTokensForSimulation ts,
      0 ≤ t.energy ∧ t.energy ≤ 1 ∧ 0 ≤ t.activity ∧ t.activity ≤ 1 ∧
      -1 ≤ t.momentum ∧ t.momentum ≤ 1 := by
  intro t ht
  obtain ⟨tok, _, rfl⟩ := List.mem_map.mp ht
  exact ⟨clampQ_lo_le _ _ _, clampQ_le_hi _ _ _ (by norm_num), clampQ_lo_le _ _ _,
    clampQ_le_hi _ _ _ (by norm_num), clampQ_lo_le _ _ _, clampQ_le_hi _ _ _ (by norm_num)⟩

/-- C10.  For a buy context whose tokens come from a snapshot (so all before
values are clamped into range) that is non-empty and contains the selected
token id, and for every buy amount, canvas size and interpretation of the
host math (log10, hypot): the simulation returns a result whose impact_rows
has at most 4 entries, and every influenced row is bounded and monotone:
after.energy and after.activity lie in [0, 1], after.momentum lies in
[-1, 1], and each after value is at least the corresponding before value. -/
theorem computeBuySimulation_bounded_monotone
    (M : HostMath) (w h amt : ℚ) (ts : List NormToken) (c : BuyContext)
    (htok : c.tokens = snapshotTokensForSimulation ts)
    (hne : c.tokens ≠ [])
    (hsel : (c.tokens.find? fun t => t.token_id == c.selected_token_id).isSome = true) :
    (∃ sim, computeBuySimulation M w h (some c) amt = some sim ∧
      sim.impact_rows.length ≤ 4) ∧
    ∀ r ∈ influencedRows M w h c amt,
      (0 ≤ r.after_energy ∧ r.after_energy ≤ 1) ∧
      (0 ≤ r.after_activity ∧ r.after_activity ≤ 1) ∧
      (-1 ≤ r.after_momentum ∧ r.after_momentum ≤ 1) ∧
      r.before_energy ≤ r.after_energy ∧ r.before_activity ≤ r.after_activity ∧
      r.before_momentum ≤ r.after_momentum := by
  constructor
  · obtain ⟨t0, hsel2⟩ := Option.isSome_iff_exists.mp hsel
    have hmem := List.mem_of_find?_eq_some hsel2
    have hpt := List.find?_some hsel2
    have hinf : (((influencedRows M w h c amt).find?
        fun row => row.token_id == c.selected_token_id)).isSome = true := by
      rw [List.find?_isSome]
      simp only [influencedRows]
      exact ⟨_, List.mem_map_of_mem _ hmem, hpt⟩
    obtain ⟨r0, hinf2⟩ := Option.isSome_iff_exists.mp hinf
    have hlen0 : ¬(c.tokens.length = 0) := by simpa [List.length_eq_zero] using hne
    have hcomp : (computeBuySimulation M w h (some c) amt).isSome = true := by
      simp only [computeBuySimulation, if_neg hlen0, hsel2, hinf2]
      rfl
    obtain ⟨sim, hsim⟩ := Option.isSome_iff_exists.mp hcomp
    refine ⟨sim, hsim, ?_⟩
    simp only [computeBuySimulation, if_neg hlen0, hsel2, hinf2, Option.some.injEq] at hsim
    rw [← hsim]
    simp only [List.length_map, List.length_take]
    exact min_le_left _ _
  · intro r hr
    simp only [influencedRows] at hr
    obtain ⟨t, htmem, rfl⟩ := List.mem_map.mp hr
    obtain ⟨he0, he1, ha0, ha1, hm0, hm1⟩ := snapshot_bounds ts t (htok ▸ htmem)
    refine ⟨⟨clampQ_lo_le _ _ _, clampQ_le_hi _ _ _ (by norm_num)⟩,
      ⟨clampQ_lo_le _ _ _, clampQ_le_hi _ _ _ (by norm_num)⟩,
      ⟨clampQ_lo_le _ _ _, clampQ_le_hi _ _ _ (by norm_num)⟩,
      le_clampQ_add _ _ _ _ he1 (clampQ_lo_le _ _ _),
      le_clampQ_add _ _ _ _ ha1 (clampQ_lo_le _ _ _),
      le_clampQ_add _ _ _ _ hm1 (clampQ_lo_le _ _ _)⟩

theorem computeBuySimulation_witness :
    (∃ sim, computeBuySimulation trivMath 100 100 (some sampleBuyContext) 5 = some sim ∧
      sim.impact_rows.length ≤ 4) ∧
    ∀ r ∈ influencedRows trivMath 100 100 sampleBuyContext 5,
      (0 ≤ r.after_energy ∧ r.after_energy ≤ 1) ∧
      (0 ≤ r.after_activity ∧ r.after_activity ≤ 1) ∧
      (-1 ≤ r.after_momentum ∧ r.after_momentum ≤ 1) ∧
      r.before_energy ≤ r.after_energy ∧ r.before_activity ≤ r.after_activity ∧
      r.before_momentum ≤ r.after_momentum :=
  computeBuySimulation_bounded_monotone trivMath 100 100 5 [sampleCooked] sampleBuyContext
    rfl (by decide) (by decide)
